import Mathlib

/-!
Verification of the seb-node configuration core

Shallow embedding of the `certible/seb-node` repository's core algorithms:

* `stringifySEBJSON` / `convertToSEBJSON` / `generateConfigKey`
  (src/config-key.ts) — the canonical serializer and Config Key;
* `removeURLFragment`, `generateConfigKeyHash`, `verifyConfigKeyHash`
  (src/config-key-shared.ts, src/config-key.ts) — the request-hash protocol;
* `escapeXml`, `valueToXml`, `dictToXml`, `generatePlistXml`
  (src/plist.ts) — the plist renderer;
* `generatePlainSEB`, `generateEncryptedSEB`, `decompressSEBFile`,
  `generateSEBConfig` (src/generator.ts) — the container codec;
* `parseSEBVersion` (src/browser.ts).

JavaScript strings are modelled by Lean `String` (a list of unicode scalar
values), buffers by `List Nat` (byte sequences).  The external primitives
(gzip, PBKDF2, AES-256-CBC, SHA-256) are not implemented by the repository:
they are modelled as parameters, bundled with the inverse laws the platform
guarantees (`gunzip ∘ gzip = id`, decryption inverts encryption with the
same key/iv).  SHA-256 appears only as an abstract `String → String`
digest parameter, since every claim about it is hash-algebra-free.
-/

namespace SebNode

/-! ## JavaScript string primitives -/

/-- Model of JavaScript `String.prototype.toLowerCase` for a single
character, restricted to ASCII (the SEB configuration keys and hex digests
the repository lowercases are ASCII). -/
def jsCharToLower (c : Char) : Char :=
  if 65 ≤ c.toNat ∧ c.toNat ≤ 90 then Char.ofNat (c.toNat + 32) else c

/-- Model of JavaScript `s.toLowerCase()`. -/
def jsToLower (s : String) : String :=
  ⟨s.data.map jsCharToLower⟩

/-- Lexicographic order on character lists by unicode scalar value
("less or equal"). -/
def lexLE : List Char → List Char → Bool
  | [], _ => true
  | _ :: _, [] => false
  | a :: as, b :: bs => if a = b then lexLE as bs else decide (a.toNat < b.toNat)

/-- The comparator `a.toLowerCase().localeCompare(b.toLowerCase(), ...)`
used by both the canonical serializer (config-key.ts line 74) and the plist
renderer (plist.ts line 74), rendered as a boolean "less or equal".
`localeCompare` is a platform collation; on the lowercased ASCII strings
the repository compares it coincides with lexicographic order by scalar
value, which is how it is modelled here. -/
def keyLE (a b : String) : Bool :=
  lexLE (jsToLower a).data (jsToLower b).data

/-- Insert one element into a list sorted by `key`, before the first
element it compares `≤` to.  Together with `keySort` this is a stable
sort, which is what `Array.prototype.sort` guarantees. -/
def keyInsert {α : Type} (key : α → String) (x : α) : List α → List α
  | [] => [x]
  | y :: ys => if keyLE (key x) (key y) then x :: y :: ys else y :: keyInsert key x ys

/-- Stable insertion sort by the SEB key comparator: the model of
`keys.sort((a, b) => a.toLowerCase().localeCompare(b.toLowerCase(), ...))`. -/
def keySort {α : Type} (key : α → String) : List α → List α
  | [] => []
  | x :: xs => keyInsert key x (keySort key xs)

/-! ## The value model

A JavaScript number is a float64: it has no separate integer type.
`Number.isInteger` distinguishes integral values at runtime, and
`toString` prints integral values without a decimal point.  A number is
therefore modelled as either an integral value or a non-integral value
carrying its JavaScript decimal rendering. -/

inductive JSNumber where
  | int (n : Int)
  | nonInt (text : String)
  deriving DecidableEq

/-- Model of `Number.isInteger`. -/
def JSNumber.isInteger : JSNumber → Bool
  | .int _ => true
  | .nonInt _ => false

/-- Model of `Number.prototype.toString` (template-literal interpolation). -/
def JSNumber.toText : JSNumber → String
  | .int n => toString n
  | .nonInt s => s

/-- The configuration value model: the JavaScript values the serializers
pattern-match on.  `date` carries the `toISOString()` rendering of the
`Date`; `bytes` is a Node `Buffer`. -/
inductive SEBValue where
  | null
  | bool (b : Bool)
  | num (n : JSNumber)
  | str (s : String)
  | date (iso : String)
  | bytes (data : List Nat)
  | arr (items : List SEBValue)
  | obj (entries : List (String × SEBValue))

/-- A configuration document: a JavaScript object, i.e. an insertion-ordered
association list with (exact-case) unique keys. -/
abbrev SEBConfigObject := List (String × SEBValue)

/-- The filter predicate of `stringifySEBJSON` (config-key.ts lines 61-67):
an entry is dropped exactly when its value is a plain object whose own key
list is empty.  `Buffer`, `Date` and arrays are excluded by the source's
`typeof` tests, which the constructor tags express here. -/
def isEmptyDict : SEBValue → Bool
  | .obj [] => true
  | _ => false

/-! ## JSON string quoting (`JSON.stringify` on strings) -/

/-- Hexadecimal digit (lowercase), as emitted by `JSON.stringify`'s
`\u00XX` escapes. -/
def hexDigit (n : Nat) : Char :=
  if n < 10 then Char.ofNat (48 + n) else Char.ofNat (87 + n)

/-- Escaping of `JSON.stringify` for one character: quote and backslash are
escaped, control characters get their short escapes or `\u00XX`; no other
escaping. -/
def jsonEscapeChar (c : Char) : List Char :=
  if c = '"' then ['\\', '"']
  else if c = '\\' then ['\\', '\\']
  else if c = '\x08' then ['\\', 'b']
  else if c = '\x09' then ['\\', 't']
  else if c = '\x0a' then ['\\', 'n']
  else if c = '\x0c' then ['\\', 'f']
  else if c = '\x0d' then ['\\', 'r']
  else if c.toNat < 32 then
    ['\\', 'u', '0', '0', hexDigit (c.toNat / 16), hexDigit (c.toNat % 16)]
  else [c]

/-- Model of `JSON.stringify` applied to a string: double quotes around the
escaped characters. -/
def jsonQuote (s : String) : String :=
  ⟨'"' :: (s.data.flatMap jsonEscapeChar ++ ['"'])⟩

/-! ## Base64 (Node `buffer.toString('base64')`) -/

/-- The base64 alphabet. -/
def base64Char (n : Nat) : Char :=
  if n < 26 then Char.ofNat (65 + n)
  else if n < 52 then Char.ofNat (97 + (n - 26))
  else if n < 62 then Char.ofNat (48 + (n - 52))
  else if n = 62 then '+'
  else '/'

/-- Encode a byte list in base64, 3 bytes per 4 output characters with
`=` padding. -/
def base64Encode : List Nat → List Char
  | [] => []
  | [a] =>
      [base64Char (a / 4), base64Char (a % 4 * 16), '=', '=']
  | [a, b] =>
      [base64Char (a / 4), base64Char (a % 4 * 16 + b / 16),
       base64Char (b % 16 * 4), '=']
  | a :: b :: c :: rest =>
      base64Char (a / 4) :: base64Char (a % 4 * 16 + b / 16) ::
      base64Char (b % 16 * 4 + c / 64) :: base64Char (c % 64) ::
      base64Encode rest

/-- Node `buffer.toString('base64')`. -/
def bytesToBase64 (bs : List Nat) : String :=
  ⟨base64Encode bs⟩

/-! ## The canonical serializer (config-key.ts `stringifySEBJSON`)

The source filters out empty-dictionary entries, sorts the surviving keys
and only then renders each value.  Filtering and sorting depend only on
each entry's key and value — not on the rendered text — and rendering is
pure, so the model renders every entry first (`stringifyEntries`, which
keeps each entry's key and its `isEmptyDict` flag alongside the rendered
value) and then filters and sorts the rendered triples.  The output is
identical; the reordering only serves Lean's structural recursion. -/

mutual

/-- Model of `stringifySEBJSON` (config-key.ts lines 24-88). -/
def stringifySEBJSON : SEBValue → String
  | .null => "null"
  | .bool b => if b then "true" else "false"
  | .num n => n.toText
  | .str s => jsonQuote s
  | .date iso => jsonQuote iso
  | .bytes data => jsonQuote (bytesToBase64 data)
  | .arr items => "[" ++ String.intercalate "," (stringifyItems items) ++ "]"
  | .obj entries =>
      let rendered := stringifyEntries entries
      let kept := rendered.filter (fun t => t.2.1)
      if kept.isEmpty then "\x7b\x7d"
      else
        "\x7b" ++
          String.intercalate ","
            ((keySort (fun t => t.1) kept).map
              (fun t => jsonQuote t.1 ++ ":" ++ t.2.2)) ++
        "\x7d"

/-- Renders each array item (the `value.map(item => stringifySEBJSON(item))`
of the source). -/
def stringifyItems : List SEBValue → List String
  | [] => []
  | v :: vs => stringifySEBJSON v :: stringifyItems vs

/-- Renders each object entry to `(key, keep-flag, rendered value)`; the
keep flag is the source's filter `Object.keys(val).length > 0` applied to
plain-object values. -/
def stringifyEntries : List (String × SEBValue) → List (String × Bool × String)
  | [] => []
  | (k, v) :: es => (k, !isEmptyDict v, stringifySEBJSON v) :: stringifyEntries es

end

/-- Model of `convertToSEBJSON` (config-key.ts lines 18-22): copy the root
object, delete its `originatorVersion` key, serialize.  On the unique-key
association lists that model JavaScript objects, deleting the key is
filtering it out. -/
def convertToSEBJSON (config : SEBConfigObject) : String :=
  stringifySEBJSON (.obj (config.filter (fun p => p.1 ≠ "originatorVersion")))

/-- Model of `generateConfigKey` (config-key.ts lines 110-114), with the
SHA-256 hex digest abstracted as `sha`. -/
def generateConfigKey (sha : String → String) (config : SEBConfigObject) : String :=
  jsToLower (sha (convertToSEBJSON config))

/-! ## The request-hash protocol (config-key-shared.ts, config-key.ts) -/

/-- Model of `removeURLFragment` (config-key-shared.ts): `url.split('#')[0]`,
i.e. the prefix of the URL that stands before its first `#` character. -/
def removeURLFragment (url : String) : String :=
  ⟨url.data.takeWhile (· ≠ '#')⟩

/-- Model of `generateConfigKeyHash` (config-key.ts lines 131-136): the hex
SHA-256 digest of the fragment-stripped URL concatenated with the Config
Key (no separator), lowercased. -/
def generateConfigKeyHash (sha : String → String) (url configKey : String) : String :=
  jsToLower (sha (removeURLFragment url ++ configKey))

/-- Model of `verifyConfigKeyHash` (config-key.ts lines 158-161):
case-insensitive comparison of the expected hash against the received one. -/
def verifyConfigKeyHash (sha : String → String) (url configKey receivedHash : String) : Bool :=
  jsToLower (generateConfigKeyHash sha url configKey) == jsToLower receivedHash

/-- The spec's `computeRequestHash(url, configKey)`:
`sha256_hex(normalizeUrl(url) + configKey)`, lowercased; written from the
spec's words for comparison with `generateConfigKeyHash`. -/
def computeRequestHashSpec (sha : String → String) (url configKey : String) : String :=
  jsToLower (sha (removeURLFragment url ++ configKey))

/-! ## The plist renderer (plist.ts)

As with the canonical serializer, `dictToXml` sorts `Object.keys(obj)` and
then renders `obj[key]` for each key, all at the same indent; the model
renders every entry first (`xmlEntries`) and sorts the rendered pairs by
key, which produces the same document over the unique-key association
lists that model JavaScript objects. -/

/-- Model of `escapeXml` (plist.ts lines 4-11).  The source chains five
global replaces, `&` first; none of the replacement texts contains a
character a later replace rewrites, so the chain equals this one-pass
per-character expansion. -/
def escapeXml (s : String) : String :=
  ⟨s.data.flatMap (fun c =>
    if c = '&' then "&amp;".data
    else if c = '<' then "&lt;".data
    else if c = '>' then "&gt;".data
    else if c = '"' then "&quot;".data
    else if c = Char.ofNat 39 then "&apos;".data
    else [c])⟩

/-- Model of `indent.slice(0, -1)`: the indent string without its last character. -/
def dropLastChar (s : String) : String :=
  ⟨s.data.dropLast⟩

/-- Assembles the `<dict>` document from rendered entries: sorted by the
key comparator, each entry a `<key>` line followed by the value (on its own
lines when multi-line, else indented), closed by `</dict>` at the parent
indent (plist.ts lines 70-90). -/
def dictLines (rendered : List (String × String)) (indent : String) : String :=
  String.intercalate "\n"
    (["<dict>"] ++
      ((keySort (fun p => p.1) rendered).flatMap (fun p =>
        [indent ++ "<key>" ++ escapeXml p.1 ++ "</key>",
         if p.2.data.contains '\n' then p.2 else indent ++ p.2])) ++
      [dropLastChar indent ++ "</dict>"])

/-- The number element of `valueToXml` (plist.ts lines 25-31): the element
is decided by `Number.isInteger` on the value. -/
def numToXml (n : JSNumber) : String :=
  if n.isInteger then "<integer>" ++ n.toText ++ "</integer>"
  else "<real>" ++ n.toText ++ "</real>"

/-- The own enumerable keys `Object.keys` exposes on a Node `Buffer`: its
numeric indices as decimal strings, each bound to the byte value (a
JavaScript number).  This is the object `dictToXml` receives when an array
item is a `Buffer`. -/
def bufferDictEntries : Nat → List Nat → List (String × String)
  | _, [] => []
  | i, b :: bs => (toString i, numToXml (.int b)) :: bufferDictEntries (i + 1) bs

/-- A `Buffer` that reaches `dictToXml` (as an array item) renders as the
dict of its numeric indices. -/
def bufferDictXml (data : List Nat) (indent : String) : String :=
  dictLines (bufferDictEntries 0 data) indent

mutual

/-- Model of `valueToXml` (plist.ts lines 16-65).  A `Date` value has no
branch of its own in the source: `typeof date === 'object'` sends it to
`dictToXml`, where `Object.keys` of a `Date` is empty, so it renders as an
empty `<dict>`. -/
def valueToXml (v : SEBValue) (indent : String) : String :=
  match v with
  | .null => "<string></string>"
  | .bool b => if b then "<true/>" else "<false/>"
  | .num n => numToXml n
  | .str s => "<string>" ++ escapeXml s ++ "</string>"
  | .bytes data => "<data>" ++ bytesToBase64 data ++ "</data>"
  | .arr items =>
      if items.isEmpty then "<array/>"
      else
        String.intercalate "\n"
          (["<array>"] ++ xmlItems items indent ++ [indent ++ "</array>"])
  | .date _ => dictLines [] indent
  | .obj entries => dictLines (xmlEntries entries (indent)) indent

/-- The array loop of `valueToXml` (plist.ts lines 48-55): each item at
indent `indent + '\t'`, prefixed by that deeper indent.  The source routes
every `typeof item === 'object'`, non-null, non-array item — plain
objects, but also `Date`s and `Buffer`s — to `dictToXml`.  For a plain
object that is the rendering `valueToXml` gives it anyway, and a `Date`
renders as the empty dict either way, but a `Buffer` item renders as the
dict of its numeric indices, not as a `<data>` element; other items take
the recursive `valueToXml` call of line 53. -/
def xmlItems (items : List SEBValue) (indent : String) : List String :=
  match items with
  | [] => []
  | v :: vs =>
      (indent ++ "\t" ++
        (match v with
          | .bytes data => bufferDictXml data (indent ++ "\t")
          | _ => valueToXml v (indent ++ "\t"))) :: xmlItems vs indent

/-- Renders each object entry to `(key, value XML)` at the given indent
(the loop body of `dictToXml`, plist.ts lines 78-86, before sorting). -/
def xmlEntries (entries : List (String × SEBValue)) (indent : String) :
    List (String × String) :=
  match entries with
  | [] => []
  | (k, v) :: es => (k, valueToXml v indent) :: xmlEntries es indent

end

/-- Model of `dictToXml` (plist.ts lines 70-90). -/
def dictToXml (obj : List (String × SEBValue)) (indent : String) : String :=
  dictLines (xmlEntries obj indent) indent

/-- Model of `generatePlistXml` (plist.ts lines 95-117): header lines, the
root `<dict>` with keys sorted by the same comparator, each root value
rendered at indent `'\t'`. -/
def generatePlistXml (config : SEBConfigObject) : String :=
  String.intercalate "\n"
    (["<?xml version=\"1.0\" encoding=\"UTF-8\"?>",
      "<!DOCTYPE plist PUBLIC \"-//Apple//DTD PLIST 1.0//EN\" \"http://www.apple.com/DTDs/PropertyList-1.0.dtd\">",
      "<plist version=\"1.0\">",
      "<dict>"] ++
      ((keySort (fun p => p.1) (xmlEntries config "\t")).flatMap (fun p =>
        ["\t<key>" ++ escapeXml p.1 ++ "</key>", "\t" ++ p.2])) ++
      ["</dict>", "</plist>"])

/-- The sequence of keys the plist renderer emits for a map: `Object.keys`
sorted by the comparator of plist.ts lines 74-76 (every key is emitted). -/
def plistKeySeq (entries : List (String × SEBValue)) : List String :=
  keySort id (entries.map (fun p => p.1))

/-- The sequence of keys the canonical serializer emits for the same map:
empty-dictionary entries are dropped first (config-key.ts lines 61-67),
the survivors sorted by the comparator of lines 74-76. -/
def canonicalKeySeq (entries : List (String × SEBValue)) : List String :=
  (keySort (fun p => p.1) (entries.filter (fun p => !isEmptyDict p.2))).map (fun p => p.1)

/-! ## The spec's Int/Real value-model tags (spec §3, §4.2)

The spec's ValueModel carries an explicit Int/Real tag.  In the source
both erase to the single JavaScript number type; `NumTag.toJS` is that
erasure.  A `realTag` value may be integral (e.g. the Real 2.0, which is
the JavaScript number 2). -/

inductive NumTag where
  | intTag (n : Int)
  | realTag (v : JSNumber)

/-- Erasure of the spec's Int/Real tag to the JavaScript number the source
renders. -/
def NumTag.toJS : NumTag → JSNumber
  | .intTag n => .int n
  | .realTag v => v

/-- Tests that `pre` begins the text `s` (the shape test "renders as a
`<real>…` element"). -/
def strStarts (pre s : String) : Bool :=
  pre.data.isPrefixOf s.data

/-! ## The container codec (generator.ts)

Byte sequences are `List Nat`.  The XML payload enters and leaves the
codec through `Buffer.from(xml, 'utf8')` / `buffer.toString('utf8')`,
the platform's bijective UTF-8 coding of valid strings; the codec is
therefore stated over the payload's byte sequence.  gzip and the cipher
are external primitives (`node:zlib`, `node:crypto`): they are modelled as
operation bundles carrying the inverse laws the platform guarantees. -/

/-- A byte sequence (Node `Buffer`). -/
abbrev ByteSeq := List Nat

/-- UTF-8 encoding of a string: the bytes of `Buffer.from(s, 'utf8')`. -/
def utf8Encode (s : String) : ByteSeq :=
  s.data.flatMap (fun c =>
    let n := c.toNat
    if n < 0x80 then [n]
    else if n < 0x800 then [0xc0 + n / 64, 0x80 + n % 64]
    else if n < 0x10000 then
      [0xe0 + n / 4096, 0x80 + n / 64 % 64, 0x80 + n % 64]
    else
      [0xf0 + n / 262144, 0x80 + n / 4096 % 64, 0x80 + n / 64 % 64,
       0x80 + n % 64])

/-- The `node:zlib` gzip/gunzip pair, abstracted: `gunzip` fails on
malformed input, and inverts `gzip`. -/
structure GzipModel where
  gzip : ByteSeq → ByteSeq
  gunzip : ByteSeq → Option ByteSeq
  gunzip_gzip : ∀ b, gunzip (gzip b) = some b

/-- The `node:crypto` primitives the codec composes, abstracted: PBKDF2
key derivation, AES-256-CBC encryption, and decryption, which fails
(bad padding) or inverts encryption under the same key and IV. -/
structure CipherModel where
  pbkdf2 : String → ByteSeq → Nat → Nat → ByteSeq
  aesEncrypt : ByteSeq → ByteSeq → ByteSeq → ByteSeq
  aesDecrypt : ByteSeq → ByteSeq → ByteSeq → Option ByteSeq
  aesDecrypt_aesEncrypt : ∀ key iv data, aesDecrypt key iv (aesEncrypt key iv data) = some data

/-- The 4-byte ASCII tag `plnd` (unencrypted). -/
def plndTag : ByteSeq := [0x70, 0x6c, 0x6e, 0x64]

/-- The 4-byte ASCII tag `pwcc` (password-encrypted). -/
def pwccTag : ByteSeq := [0x70, 0x77, 0x63, 0x63]

/-- The failures `decompressSEBFile` surfaces.  The source throws plain
`Error`s; the constructors record which throw fired and what it carries:
`passwordRequired` its message, `unknownFormat` the unrecognized tag. -/
inductive SEBError where
  | passwordRequired (msg : String)
  | unknownFormat (tag : ByteSeq)
  | gunzipFailed
  | decryptFailed
  deriving DecidableEq

/-- Model of `generatePlainSEB` (generator.ts lines 105-115): gzip the
payload, prepend `plnd`, gzip again. -/
def generatePlainSEB (G : GzipModel) (xmlBytes : ByteSeq) : ByteSeq :=
  G.gzip (plndTag ++ G.gzip xmlBytes)

/-- Model of `generateEncryptedSEB` (generator.ts lines 124-144): gzip the
payload, derive a 32-byte key by PBKDF2 (SHA-256, 10000 iterations) from
the password and a random 16-byte salt, AES-256-CBC-encrypt under a random
16-byte IV, assemble `pwcc ‖ salt ‖ iv ‖ ciphertext`, gzip once more.
The two random buffers are parameters of the model. -/
def generateEncryptedSEB (G : GzipModel) (C : CipherModel)
    (xmlBytes : ByteSeq) (password : String) (salt iv : ByteSeq) : ByteSeq :=
  let gzippedXml := G.gzip xmlBytes
  let key := C.pbkdf2 password salt 10000 32
  let encrypted := C.aesEncrypt key iv gzippedXml
  G.gzip (pwccTag ++ salt ++ iv ++ encrypted)

/-- Model of `decompressSEBFile` (generator.ts lines 162-194): gunzip the
outer layer, dispatch on the 4-byte tag.  `plnd`: gunzip the rest.
`pwcc`: require a password (`if (!password)` — absent or empty both throw),
read 16 bytes of salt and 16 of IV, derive the key as when encoding,
decrypt, gunzip.  Any other tag is an unknown-format error naming the tag. -/
def decompressSEBFile (G : GzipModel) (C : CipherModel)
    (sebData : ByteSeq) (password : Option String) : Except SEBError ByteSeq :=
  match G.gunzip sebData with
  | none => .error .gunzipFailed
  | some decompressed =>
    let tag := decompressed.take 4
    if tag = plndTag then
      match G.gunzip (decompressed.drop 4) with
      | none => .error .gunzipFailed
      | some xmlBytes => .ok xmlBytes
    else if tag = pwccTag then
      if password.getD "" = "" then
        .error (.passwordRequired "Password required for encrypted SEB file")
      else
        let pw := password.getD ""
        let salt := (decompressed.drop 4).take 16
        let iv := (decompressed.drop 20).take 16
        let encrypted := decompressed.drop 36
        let key := C.pbkdf2 pw salt 10000 32
        match C.aesDecrypt key iv encrypted with
        | none => .error .decryptFailed
        | some decrypted =>
          match G.gunzip decrypted with
          | none => .error .gunzipFailed
          | some xmlBytes => .ok xmlBytes
    else
      .error (.unknownFormat tag)

/-- Model of `SEBGenerateOptions` (generator.ts lines 11-28). -/
structure SEBGenerateOptions where
  encrypt : Bool := false
  password : Option String := none
  validate : Bool := true

/-- Model of `SEBGenerateResult` (generator.ts lines 30-45). -/
structure SEBGenerateResult where
  data : ByteSeq
  xml : String
  size : Nat
  deriving DecidableEq

/-- JavaScript truthiness of the optional password: `encrypt && password`
is false when the password is absent or the empty string. -/
def pwTruthy (password : Option String) : Bool :=
  password.getD "" ≠ ""

/-- Model of `generateSEBConfig` (generator.ts lines 66-97).  The schema
validation `sebConfigSchema.parse` is the external schema collaborator;
it is a parameter that either rejects the configuration or returns the
validated document. -/
def generateSEBConfig (G : GzipModel) (C : CipherModel)
    (validator : SEBConfigObject → Except String SEBConfigObject)
    (config : SEBConfigObject) (options : SEBGenerateOptions)
    (salt iv : ByteSeq) : Except String SEBGenerateResult :=
  match (if options.validate then validator config else .ok config) with
  | .error e => .error e
  | .ok validatedConfig =>
    let plistXml := generatePlistXml validatedConfig
    let compressedData :=
      if options.encrypt && pwTruthy options.password then
        generateEncryptedSEB G C (utf8Encode plistXml) (options.password.getD "") salt iv
      else
        generatePlainSEB G (utf8Encode plistXml)
    .ok ⟨compressedData, plistXml, compressedData.length⟩

/-! ## The SEB version parser (browser.ts) -/

/-- The parsed version record of `parseSEBVersion` (browser.ts).  The
source narrows `os` to the union `'iOS' | 'macOS' | 'Windows'`; here it is
the string, constrained by the parser. -/
structure SEBVersionInfo where
  appName : String
  os : String
  version : String
  build : String
  bundleId : String
  deriving DecidableEq

/-- Model of `parseSEBVersion` (browser.ts lines 105-131): split on `_`,
require at least 5 segments and a recognized OS token, rejoin everything
after the fourth segment as the bundle id. -/
def parseSEBVersion (versionString : String) : Option SEBVersionInfo :=
  let parts := versionString.splitOn "_"
  if parts.length < 5 then none
  else
    let os := parts.getD 1 ""
    if os ≠ "iOS" ∧ os ≠ "macOS" ∧ os ≠ "Windows" then none
    else some
      { appName := parts.getD 0 ""
        os := os
        version := parts.getD 2 ""
        build := parts.getD 3 ""
        bundleId := String.intercalate "_" (parts.drop 4) }

/-! ## Supporting lemmas: strings and the key comparator -/

theorem string_data_eq {a b : String} (h : a.data = b.data) : a = b := by
  cases a; cases b; exact congrArg String.mk h

theorem char_toNat_inj {a b : Char} (h : a.toNat = b.toNat) : a = b :=
  Char.ext (UInt32.ext h)

theorem charOfNat_toNat {n : Nat} (h : n < 1000) : (Char.ofNat n).toNat = n := by
  have hv : n < 55296 ∨ 57343 < n ∧ n < 1114112 := Or.inl (by omega)
  simp only [Char.ofNat, dif_pos hv, Char.ofNatAux, Char.toNat]
  simp [UInt32.toNat, BitVec.toNat_ofNatLt]

theorem jsCharToLower_idem (c : Char) :
    jsCharToLower (jsCharToLower c) = jsCharToLower c := by
  unfold jsCharToLower
  by_cases h : 65 ≤ c.toNat ∧ c.toNat ≤ 90
  · rw [if_pos h]
    have h2 : (Char.ofNat (c.toNat + 32)).toNat = c.toNat + 32 :=
      charOfNat_toNat (by omega)
    rw [if_neg (by rw [h2]; omega)]
  · rw [if_neg h, if_neg h]

theorem jsToLower_idem (s : String) : jsToLower (jsToLower s) = jsToLower s := by
  unfold jsToLower
  refine string_data_eq ?_
  show (s.data.map jsCharToLower).map jsCharToLower = s.data.map jsCharToLower
  rw [List.map_map]
  exact List.map_congr_left (fun a _ => jsCharToLower_idem a)

theorem lexLE_total : ∀ as bs : List Char, lexLE as bs = true ∨ lexLE bs as = true
  | [], _ => Or.inl rfl
  | _ :: _, [] => Or.inr rfl
  | a :: as, b :: bs => by
      by_cases hab : a = b
      · subst hab
        simpa [lexLE] using lexLE_total as bs
      · have hba : b ≠ a := fun h => hab h.symm
        have hne : a.toNat ≠ b.toNat := fun h => hab (char_toNat_inj h)
        simp only [lexLE, if_neg hab, if_neg hba, decide_eq_true_eq]
        omega

theorem lexLE_antisymm :
    ∀ as bs : List Char, lexLE as bs = true → lexLE bs as = true → as = bs
  | [], [], _, _ => rfl
  | [], _ :: _, _, h => by simp [lexLE] at h
  | _ :: _, [], h, _ => by simp [lexLE] at h
  | a :: as, b :: bs, h₁, h₂ => by
      by_cases hab : a = b
      · subst hab
        simp only [lexLE, if_pos rfl] at h₁ h₂
        rw [lexLE_antisymm as bs h₁ h₂]
      · have hba : b ≠ a := fun h => hab h.symm
        simp only [lexLE, if_neg hab, if_neg hba, decide_eq_true_eq] at h₁ h₂
        omega

theorem lexLE_trans :
    ∀ as bs cs : List Char,
      lexLE as bs = true → lexLE bs cs = true → lexLE as cs = true
  | [], _, _, _, _ => rfl
  | _ :: _, [], _, h, _ => by simp [lexLE] at h
  | _ :: _, _ :: _, [], _, h => by simp [lexLE] at h
  | a :: as, b :: bs, c :: cs, h₁, h₂ => by
      by_cases hab : a = b
      · subst hab
        by_cases hac : a = c
        · subst hac
          simp only [lexLE, if_pos rfl] at *
          exact lexLE_trans as bs cs h₁ h₂
        · simp only [lexLE, if_pos rfl, if_neg hac] at *
          exact h₂
      · by_cases hbc : b = c
        · subst hbc
          simp only [lexLE, if_pos rfl, if_neg hab] at *
          exact h₁
        · have hlt₁ : a.toNat < b.toNat := by
            simpa [lexLE, if_neg hab] using h₁
          have hlt₂ : b.toNat < c.toNat := by
            simpa [lexLE, if_neg hbc] using h₂
          have hac : a ≠ c := by
            intro h; subst h; omega
          simp only [lexLE, if_neg hac, decide_eq_true_eq]
          omega

theorem keyLE_total (a b : String) : keyLE a b = true ∨ keyLE b a = true :=
  lexLE_total _ _

theorem keyLE_trans {a b c : String} (h₁ : keyLE a b = true) (h₂ : keyLE b c = true) :
    keyLE a c = true :=
  lexLE_trans _ _ _ h₁ h₂

theorem keyLE_antisymm {a b : String} (h₁ : keyLE a b = true) (h₂ : keyLE b a = true) :
    jsToLower a = jsToLower b :=
  string_data_eq (lexLE_antisymm _ _ h₁ h₂)

/-! ## Supporting lemmas: the stable key sort -/

section KeySort

variable {α : Type} (key : α → String)

/-- The (pre)order the sort establishes on elements. -/
def keyRel (a b : α) : Prop := keyLE (key a) (key b) = true

theorem keyInsert_perm (x : α) (l : List α) :
    (keyInsert key x l).Perm (x :: l) := by
  induction l with
  | nil => exact List.Perm.refl _
  | cons y ys ih =>
    unfold keyInsert
    by_cases h : keyLE (key x) (key y) = true
    · rw [if_pos h]
    · rw [if_neg h]
      exact (List.Perm.cons y ih).trans (List.Perm.swap x y ys)

theorem keySort_perm (l : List α) : (keySort key l).Perm l := by
  induction l with
  | nil => exact List.Perm.refl _
  | cons x xs ih =>
    exact (keyInsert_perm key x (keySort key xs)).trans (List.Perm.cons x ih)

theorem keyInsert_pairwise (x : α) (l : List α)
    (h : l.Pairwise (keyRel key)) :
    (keyInsert key x l).Pairwise (keyRel key) := by
  induction l with
  | nil => simp [keyInsert, keyRel]
  | cons y ys ih =>
    rw [List.pairwise_cons] at h
    obtain ⟨hy, hys⟩ := h
    unfold keyInsert
    by_cases hxy : keyLE (key x) (key y) = true
    · rw [if_pos hxy]
      refine List.Pairwise.cons ?_ (List.Pairwise.cons hy hys)
      intro z hz
      rcases List.mem_cons.mp hz with rfl | hz
      · exact hxy
      · exact keyLE_trans hxy (hy z hz)
    · rw [if_neg hxy]
      refine List.Pairwise.cons ?_ (ih hys)
      intro z hz
      have hz' := (keyInsert_perm key x ys).mem_iff.mp hz
      rcases List.mem_cons.mp hz' with hzx | hz'
      · rw [hzx]
        rcases keyLE_total (key x) (key y) with h | h
        · exact absurd h hxy
        · exact h
      · exact hy z hz'

theorem keySort_pairwise (l : List α) :
    (keySort key l).Pairwise (keyRel key) := by
  induction l with
  | nil => exact List.Pairwise.nil
  | cons x xs ih => exact keyInsert_pairwise key x _ ih

/-- Two sorted lists that are permutations of each other and whose keys are
pairwise distinct after lowercasing are equal. -/
theorem sorted_perm_nodup_eq :
    ∀ l₁ l₂ : List α, l₁.Perm l₂ →
      l₁.Pairwise (keyRel key) → l₂.Pairwise (keyRel key) →
      (l₁.map (fun a => jsToLower (key a))).Nodup → l₁ = l₂
  | [], l₂, h, _, _, _ => (h.symm.eq_nil).symm
  | a :: t₁, [], h, _, _, _ => absurd h.eq_nil (by simp)
  | a :: t₁, b :: t₂, h, hp₁, hp₂, hnd => by
      by_cases hab : a = b
      · subst hab
        rw [sorted_perm_nodup_eq t₁ t₂ h.cons_inv
          (List.pairwise_cons.mp hp₁).2 (List.pairwise_cons.mp hp₂).2
          (List.nodup_cons.mp (by simpa using hnd)).2]
      · exfalso
        have ha₂ : a ∈ t₂ := by
          have := h.mem_iff.mp (List.mem_cons_self a t₁)
          rcases List.mem_cons.mp this with h' | h'
          · exact absurd h' hab
          · exact h'
        have hb₁ : b ∈ t₁ := by
          have := h.mem_iff.mpr (List.mem_cons_self b t₂)
          rcases List.mem_cons.mp this with h' | h'
          · exact absurd h'.symm hab
          · exact h'
        have hle₁ : keyLE (key a) (key b) = true :=
          (List.pairwise_cons.mp hp₁).1 b hb₁
        have hle₂ : keyLE (key b) (key a) = true :=
          (List.pairwise_cons.mp hp₂).1 a ha₂
        have hlow : jsToLower (key a) = jsToLower (key b) :=
          keyLE_antisymm hle₁ hle₂
        have : jsToLower (key a) ∉ t₁.map (fun a => jsToLower (key a)) :=
          (List.nodup_cons.mp (by simpa using hnd)).1
        exact this (hlow ▸ List.mem_map_of_mem _ hb₁)

/-- Sorting two permuted lists with case-insensitively distinct keys gives
the same list. -/
theorem keySort_eq_of_perm {l₁ l₂ : List α} (h : l₁.Perm l₂)
    (hnd : (l₁.map (fun a => jsToLower (key a))).Nodup) :
    keySort key l₁ = keySort key l₂ := by
  refine sorted_perm_nodup_eq key _ _
    ((keySort_perm key l₁).trans (h.trans (keySort_perm key l₂).symm))
    (keySort_pairwise key l₁) (keySort_pairwise key l₂) ?_
  exact (((keySort_perm key l₁).map _).nodup_iff).mpr hnd

end KeySort

/-- Mapping the key through `keyInsert` turns it into insertion by the key
itself. -/
theorem keyInsert_map {α : Type} (key : α → String) (x : α) :
    ∀ l : List α, (keyInsert key x l).map key = keyInsert id (key x) (l.map key)
  | [] => rfl
  | y :: ys => by
      by_cases h : keyLE (key x) (key y) = true <;>
        simp [keyInsert, h, keyInsert_map key x ys]

/-- Sorting entries and reading off their keys is sorting the keys. -/
theorem keySort_map {α : Type} (key : α → String) :
    ∀ l : List α, (keySort key l).map key = keySort id (l.map key)
  | [] => rfl
  | x :: xs => by
      rw [keySort, List.map_cons, keySort, keyInsert_map, keySort_map key xs]

/-! ## Supporting lemmas: URL fragments -/

theorem takeWhile_append_stop {p : Char → Bool} {c : Char} (hc : p c = false) :
    ∀ l₁ l₂ : List Char, (l₁ ++ c :: l₂).takeWhile p = l₁.takeWhile p
  | [], l₂ => by simp [List.takeWhile, hc]
  | a :: as, l₂ => by
      simp only [List.cons_append, List.takeWhile]
      cases p a <;> simp [takeWhile_append_stop hc as l₂]

/-- Appending a fragment (everything from a `#` on) never changes the
fragment-stripped URL. -/
theorem removeURLFragment_append (u v : String) :
    removeURLFragment (u ++ "#" ++ v) = removeURLFragment u := by
  unfold removeURLFragment
  refine congrArg String.mk ?_
  have : (u ++ "#" ++ v).data = u.data ++ '#' :: v.data := by
    rw [String.data_append, String.data_append]
    simp [List.append_assoc]
  rw [this]
  exact takeWhile_append_stop (by decide) u.data v.data

/-- The function `stringifyEntries` is a per-entry map. -/
theorem stringifyEntries_eq_map :
    ∀ es : List (String × SEBValue),
      stringifyEntries es =
        es.map (fun p => (p.1, !isEmptyDict p.2, stringifySEBJSON p.2))
  | [] => rfl
  | (k, v) :: es => by
      rw [stringifyEntries, stringifyEntries_eq_map es, List.map_cons]

/-! ## Supporting lemmas: the container codec -/

/-- Decoding inverts plain encoding. -/
theorem plainSEB_roundtrip (G : GzipModel) (C : CipherModel) (xmlBytes : ByteSeq)
    (password : Option String) :
    decompressSEBFile G C (generatePlainSEB G xmlBytes) password = .ok xmlBytes := by
  unfold generatePlainSEB decompressSEBFile
  rw [G.gunzip_gzip]
  have htake : (plndTag ++ G.gzip xmlBytes).take 4 = plndTag :=
    List.take_left' rfl
  have hdrop : (plndTag ++ G.gzip xmlBytes).drop 4 = G.gzip xmlBytes :=
    List.drop_left' rfl
  simp [htake, hdrop, G.gunzip_gzip]

/-- Decoding with the same password inverts encrypted encoding, for the
16-byte salt and IV the encoder draws. -/
theorem encryptedSEB_roundtrip (G : GzipModel) (C : CipherModel)
    (xmlBytes : ByteSeq) (password : String) (salt iv : ByteSeq)
    (hsalt : salt.length = 16) (hiv : iv.length = 16) (hpw : password ≠ "") :
    decompressSEBFile G C (generateEncryptedSEB G C xmlBytes password salt iv)
      (some password) = .ok xmlBytes := by
  unfold generateEncryptedSEB decompressSEBFile
  rw [G.gunzip_gzip]
  simp only [List.append_assoc]
  generalize henc :
    C.aesEncrypt (C.pbkdf2 password salt 10000 32) iv (G.gzip xmlBytes) = enc0
  have htake : (pwccTag ++ (salt ++ (iv ++ enc0))).take 4 = pwccTag :=
    List.take_left' rfl
  have hne : ¬ ((pwccTag ++ (salt ++ (iv ++ enc0))).take 4 = plndTag) := by
    rw [htake]; decide
  have hsaltx : ((pwccTag ++ (salt ++ (iv ++ enc0))).drop 4).take 16 = salt := by
    rw [List.drop_left' (show pwccTag.length = 4 from rfl)]
    exact List.take_left' hsalt
  have hivx : ((pwccTag ++ (salt ++ (iv ++ enc0))).drop 20).take 16 = iv := by
    rw [show pwccTag ++ (salt ++ (iv ++ enc0)) = (pwccTag ++ salt) ++ (iv ++ enc0) by
          simp [List.append_assoc],
        List.drop_left' (show (pwccTag ++ salt).length = 20 by simp [pwccTag, hsalt])]
    exact List.take_left' hiv
  have hencx : (pwccTag ++ (salt ++ (iv ++ enc0))).drop 36 = enc0 := by
    rw [show pwccTag ++ (salt ++ (iv ++ enc0)) = ((pwccTag ++ salt) ++ iv) ++ enc0 by
          simp [List.append_assoc]]
    exact List.drop_left' (show ((pwccTag ++ salt) ++ iv).length = 36 by
      simp [pwccTag, hsalt, hiv])
  rw [if_neg hne, htake, if_pos rfl, Option.getD_some, if_neg hpw,
    hsaltx, hivx, hencx, ← henc, C.aesDecrypt_aesEncrypt]
  simp [G.gunzip_gzip]

/-- Decoding an encrypted container with the empty password fails with the
password-required error: the decoder's `if (!password)` (generator.ts line
174) treats the empty string as absent, even though the encoder accepted it
(PBKDF2 derives a key from any string). -/
theorem encryptedSEB_emptyPassword (G : GzipModel) (C : CipherModel)
    (xmlBytes : ByteSeq) (salt iv : ByteSeq) :
    decompressSEBFile G C (generateEncryptedSEB G C xmlBytes "" salt iv)
      (some "") =
      .error (.passwordRequired "Password required for encrypted SEB file") := by
  unfold generateEncryptedSEB decompressSEBFile
  rw [G.gunzip_gzip]
  simp only [List.append_assoc]
  generalize C.aesEncrypt (C.pbkdf2 "" salt 10000 32) iv (G.gzip xmlBytes) = enc0
  have htake : (pwccTag ++ (salt ++ (iv ++ enc0))).take 4 = pwccTag :=
    List.take_left' rfl
  have hne : ¬ ((pwccTag ++ (salt ++ (iv ++ enc0))).take 4 = plndTag) := by
    rw [htake]; decide
  rw [if_neg hne, htake, if_pos rfl,
    if_pos (show (Option.getD (some "") "") = "" from rfl)]

/-- A trivial gzip bundle (identity compression) for concrete instantiation. -/
def G0 : GzipModel where
  gzip := fun b => b
  gunzip := fun b => some b
  gunzip_gzip := fun _ => rfl

/-- A trivial cipher bundle (identity encryption) for concrete instantiation. -/
def C0 : CipherModel where
  pbkdf2 := fun _ _ _ _ => []
  aesEncrypt := fun _ _ d => d
  aesDecrypt := fun _ _ d => some d
  aesDecrypt_aesEncrypt := fun _ _ _ => rfl

/-! ## Claims -/

/-- C1, as stated, is false: the serializer's filter tests
`Object.keys(val).length > 0` on the unfiltered value, so elision is not
recursive.  The document `\x7ba: \x7bb: \x7b\x7d\x7d\x7d` contains the
empty mapping `\x7b\x7d` (the value of `b`); removing that mapping yields
`\x7ba: \x7b\x7d\x7d`, yet the two canonicalize to different byte strings:
the first to `\x7b"a":\x7b\x7d\x7d`, the second to `\x7b\x7d`. -/
theorem claim_C1_counterexample :
    convertToSEBJSON [("a", .obj [("b", .obj [])])] = "\x7b\"a\":\x7b\x7d\x7d" ∧
    convertToSEBJSON [("a", .obj [])] = "\x7b\x7d" ∧
    convertToSEBJSON [("a", .obj [("b", .obj [])])] ≠
      convertToSEBJSON [("a", .obj [])] := by
  refine ⟨rfl, rfl, ?_⟩
  decide

/-- C1 (amended): the canonical serializer drops from every map each entry
whose value is a *literally empty* map (zero entries before any filtering);
such an empty mapping is elided at whatever depth it appears.  A map whose
entries are all dropped is not itself elided from its parent: it renders as
`\x7b\x7d`, so a recursively-empty mapping changes the canonical form. -/
theorem claim_C1_amended :
    (∀ (es₁ es₂ : SEBConfigObject) (k : String),
      stringifySEBJSON (.obj (es₁ ++ (k, .obj []) :: es₂)) =
        stringifySEBJSON (.obj (es₁ ++ es₂))) ∧
    stringifySEBJSON (.obj [("a", .obj [("b", .obj [])])]) =
      "\x7b\"a\":\x7b\x7d\x7d" := by
  constructor
  · intro es₁ es₂ k
    simp only [stringifySEBJSON, stringifyEntries_eq_map, List.map_append,
      List.map_cons, List.filter_append, List.filter_cons, isEmptyDict,
      Bool.not_true, Bool.false_eq_true, if_false]
  · rfl

/-- C3, as stated, is false: the sort comparator lowercases both keys, so
two keys that differ only in ASCII case compare equal, and the stable sort
leaves them in insertion order.  Reordering the entries of
`\x7bA: true, a: false\x7d` changes the canonical byte string. -/
theorem claim_C3_counterexample :
    ([(("A" : String), SEBValue.bool true), ("a", SEBValue.bool false)]).Perm
      [("a", SEBValue.bool false), ("A", SEBValue.bool true)] ∧
    stringifySEBJSON (.obj [("A", .bool true), ("a", .bool false)]) ≠
      stringifySEBJSON (.obj [("a", .bool false), ("A", .bool true)]) := by
  constructor
  · exact List.Perm.swap _ _ _
  · decide

/-- C3 (amended): for every map whose keys are pairwise distinct after
lowercasing, re-ordering its entries yields a byte-identical canonical
serialization (and, since the serialization of a map is built from the
serializations of its values, the output is insertion-order-independent at
every nesting level). -/
theorem claim_C3_amended (es₁ es₂ : SEBConfigObject)
    (hperm : es₁.Perm es₂)
    (hkeys : (es₁.map (fun p => jsToLower p.1)).Nodup) :
    stringifySEBJSON (.obj es₁) = stringifySEBJSON (.obj es₂) := by
  simp only [stringifySEBJSON, stringifyEntries_eq_map]
  have hr : (es₁.map (fun p => (p.1, !isEmptyDict p.2, stringifySEBJSON p.2))).Perm
      (es₂.map (fun p => (p.1, !isEmptyDict p.2, stringifySEBJSON p.2))) :=
    hperm.map _
  have hk : ((es₁.map (fun p => (p.1, !isEmptyDict p.2, stringifySEBJSON p.2))).filter
        (fun t => t.2.1)).Perm
      ((es₂.map (fun p => (p.1, !isEmptyDict p.2, stringifySEBJSON p.2))).filter
        (fun t => t.2.1)) :=
    hr.filter _
  have hnd : (((es₁.map (fun p => (p.1, !isEmptyDict p.2, stringifySEBJSON p.2))).filter
      (fun t => t.2.1)).map (fun t => jsToLower t.1)).Nodup := by
    have hsub : ((es₁.map (fun p => (p.1, !isEmptyDict p.2, stringifySEBJSON p.2))).filter
        (fun t => t.2.1)).Sublist
        (es₁.map (fun p => (p.1, !isEmptyDict p.2, stringifySEBJSON p.2))) :=
      List.filter_sublist _
    refine (hsub.map (fun t => jsToLower t.1)).nodup ?_
    rw [List.map_map]
    simpa [Function.comp] using hkeys
  have hsorted :
      keySort (fun t => t.1)
        ((es₁.map (fun p => (p.1, !isEmptyDict p.2, stringifySEBJSON p.2))).filter
          (fun t => t.2.1)) =
      keySort (fun t => t.1)
        ((es₂.map (fun p => (p.1, !isEmptyDict p.2, stringifySEBJSON p.2))).filter
          (fun t => t.2.1)) :=
    keySort_eq_of_perm _ hk hnd
  have hempty :
      ((es₁.map (fun p => (p.1, !isEmptyDict p.2, stringifySEBJSON p.2))).filter
        (fun t => t.2.1)).isEmpty =
      ((es₂.map (fun p => (p.1, !isEmptyDict p.2, stringifySEBJSON p.2))).filter
        (fun t => t.2.1)).isEmpty := by
    rcases h0 : (es₁.map (fun p => (p.1, !isEmptyDict p.2, stringifySEBJSON p.2))).filter
        (fun t => t.2.1) with _ | ⟨x, xs⟩
    · rw [h0] at hk
      rw [h0, ← hk.nil_eq]
    · rw [h0] at hk
      rcases h1 : (es₂.map (fun p => (p.1, !isEmptyDict p.2, stringifySEBJSON p.2))).filter
          (fun t => t.2.1) with _ | ⟨y, ys⟩
      · rw [h1] at hk
        exact absurd hk.eq_nil (by simp)
      · rw [h0, h1]
        rfl
  rw [hsorted, hempty]

/-- C3 witness: a concrete reordered map with case-insensitively distinct
keys serializes identically. -/
theorem claim_C3_witness :
    ([(("b" : String), SEBValue.bool true), ("a", SEBValue.null)]).Perm
      [("a", SEBValue.null), ("b", SEBValue.bool true)] ∧
    (([(("b" : String), SEBValue.bool true), ("a", SEBValue.null)]).map
      (fun p => jsToLower p.1)).Nodup ∧
    stringifySEBJSON (.obj [("b", .bool true), ("a", .null)]) =
      stringifySEBJSON (.obj [("a", .null), ("b", .bool true)]) :=
  ⟨List.Perm.swap _ _ _, by decide,
    claim_C3_amended _ _ (List.Perm.swap _ _ _) (by decide)⟩

/-- C2, as stated, is false at the empty password: the claim quantifies
over every password, but while `generateEncryptedSEB(xml, '')` succeeds
and produces a `pwcc` container, `decompressSEBFile(data, '')` hits
`if (!password)` (generator.ts line 174) — the empty string is falsy — and
throws the password-required error instead of returning the payload. -/
theorem claim_C2_counterexample :
    decompressSEBFile G0 C0
      (generateEncryptedSEB G0 C0 [60, 63, 120] ""
        (List.replicate 16 0) (List.replicate 16 0)) (some "") =
      .error (.passwordRequired "Password required for encrypted SEB file") ∧
    decompressSEBFile G0 C0
      (generateEncryptedSEB G0 C0 [60, 63, 120] ""
        (List.replicate 16 0) (List.replicate 16 0)) (some "") ≠
      .ok [60, 63, 120] := by
  have h0 : decompressSEBFile G0 C0
      (generateEncryptedSEB G0 C0 [60, 63, 120] ""
        (List.replicate 16 0) (List.replicate 16 0)) (some "") =
      .error (.passwordRequired "Password required for encrypted SEB file") := rfl
  exact ⟨h0, fun h => Except.noConfusion (h0.symm.trans h)⟩

/-- C2 (amended): container round-trip for every payload byte sequence —
decoding a plain container recovers it with no password, and decoding an
encrypted container with the password used for encoding recovers it for
every *non-empty* password (with the 16-byte salt and IV the encoder
draws).  With the empty password, encoding succeeds but decoding fails
with the password-required error rather than returning the payload. -/
theorem claim_C2_amended :
    (∀ (G : GzipModel) (C : CipherModel) (xmlBytes : ByteSeq),
      decompressSEBFile G C (generatePlainSEB G xmlBytes) none = .ok xmlBytes) ∧
    (∀ (G : GzipModel) (C : CipherModel) (xmlBytes : ByteSeq)
      (password : String) (salt iv : ByteSeq),
      salt.length = 16 → iv.length = 16 → password ≠ "" →
      decompressSEBFile G C (generateEncryptedSEB G C xmlBytes password salt iv)
        (some password) = .ok xmlBytes) ∧
    (∀ (G : GzipModel) (C : CipherModel) (xmlBytes salt iv : ByteSeq),
      decompressSEBFile G C (generateEncryptedSEB G C xmlBytes "" salt iv)
        (some "") =
        .error (.passwordRequired "Password required for encrypted SEB file")) :=
  ⟨fun G C xmlBytes => plainSEB_roundtrip G C xmlBytes none,
   fun G C xmlBytes password salt iv hs hi hpw =>
     encryptedSEB_roundtrip G C xmlBytes password salt iv hs hi hpw,
   fun G C xmlBytes salt iv => encryptedSEB_emptyPassword G C xmlBytes salt iv⟩

/-- C2 witness: the round trips at a concrete payload, password, salt and
IV, under the trivial primitive bundles. -/
theorem claim_C2_witness :
    (List.replicate 16 0).length = 16 ∧ ("pw" : String) ≠ "" ∧
    decompressSEBFile G0 C0 (generatePlainSEB G0 [60, 63, 120]) none =
      .ok [60, 63, 120] ∧
    decompressSEBFile G0 C0
      (generateEncryptedSEB G0 C0 [60, 63, 120] "pw"
        (List.replicate 16 0) (List.replicate 16 0)) (some "pw") =
      .ok [60, 63, 120] :=
  ⟨by decide, by decide, claim_C2_amended.1 G0 C0 [60, 63, 120],
   claim_C2_amended.2.1 G0 C0 [60, 63, 120] "pw" (List.replicate 16 0)
     (List.replicate 16 0) (by decide) (by decide) (by decide)⟩

/-- C4: `verifyConfigKeyHash` returns true exactly when the received hash
equals the request hash case-insensitively; the request hash is the
lowercased digest of the fragment-stripped URL concatenated with the
Config Key; and URLs differing only in their fragment verify against the
same hash. -/
theorem claim_C4 :
    (∀ (sha : String → String) (url configKey receivedHash : String),
      verifyConfigKeyHash sha url configKey receivedHash = true ↔
        jsToLower receivedHash = computeRequestHashSpec sha url configKey) ∧
    (∀ (sha : String → String) (url configKey : String),
      generateConfigKeyHash sha url configKey =
        computeRequestHashSpec sha url configKey) ∧
    (∀ (sha : String → String) (u frag configKey receivedHash : String),
      verifyConfigKeyHash sha (u ++ "#" ++ frag) configKey receivedHash =
        verifyConfigKeyHash sha u configKey receivedHash) := by
  refine ⟨?_, fun _ _ _ => rfl, ?_⟩
  · intro sha url configKey receivedHash
    rw [verifyConfigKeyHash, beq_iff_eq, generateConfigKeyHash, jsToLower_idem]
    exact eq_comm
  · intro sha u frag configKey receivedHash
    rw [verifyConfigKeyHash, verifyConfigKeyHash, generateConfigKeyHash,
      generateConfigKeyHash, removeURLFragment_append]

/-- C5: decoding a `pwcc` container without a password fails with the
password error carrying the exact message of generator.ts line 175, and
decoding a container whose tag is neither `plnd` nor `pwcc` fails with a
format error naming that tag; both paths return errors, not results. -/
theorem claim_C5 :
    (∀ (G : GzipModel) (C : CipherModel) (data d : ByteSeq),
      G.gunzip data = some d → d.take 4 = pwccTag →
      decompressSEBFile G C data none =
        .error (.passwordRequired "Password required for encrypted SEB file")) ∧
    (∀ (G : GzipModel) (C : CipherModel) (data d : ByteSeq)
      (password : Option String),
      G.gunzip data = some d → d.take 4 ≠ plndTag → d.take 4 ≠ pwccTag →
      decompressSEBFile G C data password =
        .error (.unknownFormat (d.take 4))) := by
  constructor
  · intro G C data d hgz htag
    unfold decompressSEBFile
    rw [hgz]
    simp [htag, show pwccTag ≠ plndTag from by decide]
  · intro G C data d password hgz hplnd hpwcc
    unfold decompressSEBFile
    rw [hgz]
    simp [hplnd, hpwcc]

/-- C5 witness: a concrete `pwcc` container without a password and a
concrete unknown-tag container, under the trivial gzip bundle. -/
theorem claim_C5_witness :
    G0.gunzip pwccTag = some pwccTag ∧ pwccTag.take 4 = pwccTag ∧
    decompressSEBFile G0 C0 pwccTag none =
      .error (.passwordRequired "Password required for encrypted SEB file") ∧
    G0.gunzip [9, 9, 9, 9] = some [9, 9, 9, 9] ∧
    ([9, 9, 9, 9] : ByteSeq).take 4 ≠ plndTag ∧
    ([9, 9, 9, 9] : ByteSeq).take 4 ≠ pwccTag ∧
    decompressSEBFile G0 C0 [9, 9, 9, 9] (some "x") =
      .error (.unknownFormat [9, 9, 9, 9]) :=
  ⟨rfl, by decide, claim_C5.1 G0 C0 pwccTag pwccTag rfl (by decide),
   rfl, by decide, by decide,
   claim_C5.2 G0 C0 [9, 9, 9, 9] [9, 9, 9, 9] (some "x") rfl
     (by decide) (by decide)⟩

/-- C6, as stated, is false: the renderer has no Int/Real tag to look at —
it branches on `Number.isInteger` (plist.ts lines 25-31).  A value the
spec's model tags Real with the integral value 2.0 erases to the
JavaScript number 2 and renders as `<integer>2</integer>`, not as a
`<real>` element. -/
theorem claim_C6_counterexample :
    valueToXml (.num (NumTag.toJS (.realTag (.int 2)))) "\t" =
      "<integer>2</integer>" ∧
    strStarts "<real>" (valueToXml (.num (NumTag.toJS (.realTag (.int 2)))) "\t") =
      false := by
  constructor
  · rfl
  · decide

/-- C6 (amended): the element is decided by the runtime test
`Number.isInteger` on the numeric value, not by a model tag: an Int-tagged
value (always integral) renders as `<integer>N</integer>`, and any number
renders as `<integer>` exactly when integral, as `<real>` otherwise — so an
integral-valued Real also renders as `<integer>`. -/
theorem claim_C6_amended :
    (∀ (m : Int) (indent : String),
      valueToXml (.num (NumTag.toJS (.intTag m))) indent =
        "<integer>" ++ toString m ++ "</integer>") ∧
    (∀ (n : JSNumber) (indent : String),
      valueToXml (.num n) indent =
        if n.isInteger then "<integer>" ++ n.toText ++ "</integer>"
        else "<real>" ++ n.toText ++ "</real>") := by
  constructor
  · intro m indent
    rfl
  · intro n indent
    cases n <;> rfl

/-- C7, as stated, is false: the two components share the comparator but
not the key set.  The plist renderer emits every key of a map, while the
canonical serializer first drops empty-dictionary entries, so for the map
`\x7bb: \x7b\x7d, a: true\x7d` the plist renderer emits `[a, b]` and the
canonical serializer emits `[a]`. -/
theorem claim_C7_counterexample :
    plistKeySeq [("b", .obj []), ("a", .bool true)] = ["a", "b"] ∧
    canonicalKeySeq [("b", .obj []), ("a", .bool true)] = ["a"] ∧
    plistKeySeq [("b", .obj []), ("a", .bool true)] ≠
      canonicalKeySeq [("b", .obj []), ("a", .bool true)] := by
  refine ⟨by decide, by decide, by decide⟩

/-- C7 (amended): the two components sort with the same comparator, so for
every map none of whose entries is an empty dictionary (the entries the
canonical serializer would drop and the plist renderer would keep), the
sequence of keys the plist renderer emits is identical to the sequence the
canonical serializer emits. -/
theorem claim_C7_amended (entries : List (String × SEBValue))
    (h : ∀ p ∈ entries, isEmptyDict p.2 = false) :
    plistKeySeq entries = canonicalKeySeq entries := by
  unfold plistKeySeq canonicalKeySeq
  have hfilter : entries.filter (fun p => !isEmptyDict p.2) = entries :=
    List.filter_eq_self.mpr (fun p hp => by rw [h p hp]; rfl)
  rw [hfilter, keySort_map]

/-- C7 witness: a concrete map with no empty-dictionary entries, on which
the two key sequences coincide. -/
theorem claim_C7_witness :
    (∀ p ∈ [(("b" : String), SEBValue.bool true), ("A", SEBValue.str "x")],
      isEmptyDict p.2 = false) ∧
    plistKeySeq [("b", .bool true), ("A", .str "x")] =
      canonicalKeySeq [("b", .bool true), ("A", .str "x")] :=
  ⟨by decide, claim_C7_amended _ (by decide)⟩

/-- C8: only the root's `originatorVersion` key is removed — a document
with that key anywhere at the root (any position, any value) has the same
canonical form and Config Key as the document without it, while a nested
key of the same name is serialized untouched, so differing nested values
change the canonical form. -/
theorem claim_C8 :
    (∀ (es₁ es₂ : SEBConfigObject) (v : SEBValue),
      convertToSEBJSON (es₁ ++ ("originatorVersion", v) :: es₂) =
        convertToSEBJSON (es₁ ++ es₂)) ∧
    (∀ (sha : String → String) (es₁ es₂ : SEBConfigObject) (v : SEBValue),
      generateConfigKey sha (es₁ ++ ("originatorVersion", v) :: es₂) =
        generateConfigKey sha (es₁ ++ es₂)) ∧
    convertToSEBJSON [("nested", .obj [("originatorVersion", .str "1.0")])] =
      "\x7b\"nested\":\x7b\"originatorVersion\":\"1.0\"\x7d\x7d" ∧
    convertToSEBJSON [("nested", .obj [("originatorVersion", .str "1")])] ≠
      convertToSEBJSON [("nested", .obj [("originatorVersion", .str "2")])] := by
  have hroot : ∀ (es₁ es₂ : SEBConfigObject) (v : SEBValue),
      convertToSEBJSON (es₁ ++ ("originatorVersion", v) :: es₂) =
        convertToSEBJSON (es₁ ++ es₂) := by
    intro es₁ es₂ v
    unfold convertToSEBJSON
    rw [List.filter_append, List.filter_append, List.filter_cons]
    simp
  refine ⟨hroot, ?_, rfl, by decide⟩
  intro sha es₁ es₂ v
  unfold generateConfigKey
  rw [hroot]

/-- C9: `parseSEBVersion` returns the record of the first four
underscore-delimited segments plus the underscore-rejoined remainder as the
bundle id, exactly when there are at least 5 segments and the second is
`iOS`, `macOS` or `Windows`; otherwise it returns `none`. -/
theorem claim_C9 (s : String) :
    parseSEBVersion s =
      (let parts := s.splitOn "_"
       if 5 ≤ parts.length ∧
          (parts.getD 1 "" = "iOS" ∨ parts.getD 1 "" = "macOS" ∨
            parts.getD 1 "" = "Windows") then
         some { appName := parts.getD 0 "", os := parts.getD 1 "",
                version := parts.getD 2 "", build := parts.getD 3 "",
                bundleId := String.intercalate "_" (parts.drop 4) }
       else none) := by
  by_cases h1 : (s.splitOn "_").length < 5
  · have hr : ¬ (5 ≤ (s.splitOn "_").length ∧
        (((s.splitOn "_")[1]?).getD "" = "iOS" ∨
          ((s.splitOn "_")[1]?).getD "" = "macOS" ∨
          ((s.splitOn "_")[1]?).getD "" = "Windows")) :=
      fun hc => absurd hc.1 (by omega)
    simp [parseSEBVersion, h1, hr]
  · by_cases h2 : ((s.splitOn "_")[1]?).getD "" ≠ "iOS" ∧
        ((s.splitOn "_")[1]?).getD "" ≠ "macOS" ∧
        ((s.splitOn "_")[1]?).getD "" ≠ "Windows"
    · have hr : ¬ (5 ≤ (s.splitOn "_").length ∧
          (((s.splitOn "_")[1]?).getD "" = "iOS" ∨
            ((s.splitOn "_")[1]?).getD "" = "macOS" ∨
            ((s.splitOn "_")[1]?).getD "" = "Windows")) := by
        tauto
      simp [parseSEBVersion, h1, h2, hr]
    · have hr : 5 ≤ (s.splitOn "_").length ∧
          (((s.splitOn "_")[1]?).getD "" = "iOS" ∨
            ((s.splitOn "_")[1]?).getD "" = "macOS" ∨
            ((s.splitOn "_")[1]?).getD "" = "Windows") :=
        ⟨by omega, by tauto⟩
      simp [parseSEBVersion, h1, h2, hr]

/-- C10 (implicit): with `encrypt: true` and no password,
`generateSEBConfig` succeeds, takes the plain path — the result is the
`plnd` container of the plist XML, not an encrypted one — and that
container decodes without any password. -/
theorem claim_C10 (G : GzipModel) (C : CipherModel)
    (validator : SEBConfigObject → Except String SEBConfigObject)
    (config validated : SEBConfigObject) (salt iv : ByteSeq)
    (hval : validator config = .ok validated) :
    generateSEBConfig G C validator config ⟨true, none, true⟩ salt iv =
      .ok ⟨generatePlainSEB G (utf8Encode (generatePlistXml validated)),
           generatePlistXml validated,
           (generatePlainSEB G (utf8Encode (generatePlistXml validated))).length⟩ ∧
    decompressSEBFile G C
      (generatePlainSEB G (utf8Encode (generatePlistXml validated))) none =
      .ok (utf8Encode (generatePlistXml validated)) := by
  constructor
  · unfold generateSEBConfig
    simp [hval, pwTruthy]
  · exact plainSEB_roundtrip G C _ none

/-- C10 witness: a concrete configuration with a trivial validator. -/
theorem claim_C10_witness :
    ((fun c : SEBConfigObject => (Except.ok c : Except String SEBConfigObject)) [] =
      .ok []) ∧
    (generateSEBConfig G0 C0 (fun c => .ok c) [] ⟨true, none, true⟩ [] [] =
      .ok ⟨generatePlainSEB G0 (utf8Encode (generatePlistXml [])),
           generatePlistXml [],
           (generatePlainSEB G0 (utf8Encode (generatePlistXml []))).length⟩ ∧
     decompressSEBFile G0 C0
       (generatePlainSEB G0 (utf8Encode (generatePlistXml []))) none =
       .ok (utf8Encode (generatePlistXml []))) :=
  ⟨rfl, claim_C10 G0 C0 (fun c => .ok c) [] [] [] [] rfl⟩

end SebNode
